import Mathlib

/-!
Verification of the EchoSphere branching-story core.

This file gives a shallow embedding of the server actions and rendering
logic of the EchoSphere repository:

* `createStory`   embeds `createStoryAction` (src/app/stories/create/actions.ts),
* `addStoryNode`  embeds `addStoryNodeAction` (src/app/stories/edit/[storyId]/actions.ts),
* `addComment`    embeds `addCommentToStoryNodeAction` (src/app/stories/[storyId]/actions.ts),
* `handleVote`    embeds `handleVote` (src/app/stories/[storyId]/actions.ts),
* `renderTree`    embeds the recursive rendering of `StoryNodeDisplay` /
  `renderNodesRecursive` (src/app/stories/[storyId]/page.tsx).

The Firestore state is modelled as explicit finite association lists:
`stories/{storyId}` documents, `stories/{storyId}/nodes/{nodeId}` documents
and the per-node `comments` subcollections.  Firestore's randomly generated
document ids are passed as explicit arguments; theorems that rely on id
freshness state it as a hypothesis.  `Date.now()` is likewise an explicit
`Int` argument.  Presentation-only story fields that no claim touches
(`coverImageUrl` aside, the regex-derived `firstNodeExcerpt`) are omitted.
JavaScript numbers are modelled as `Int` (all code paths under study use
integer arithmetic only).
-/

/-- Direction of a vote, as stored in a node's `votedBy` map
(`'upvote' | 'downvote'` in the source). -/
inductive VoteType where
  | upvote
  | downvote
deriving DecidableEq, Repr

/-- Story publication status (`"draft" | "published"`). -/
inductive StoryStatus where
  | draft
  | published
deriving DecidableEq, Repr

/-- One story node document (`StoryNode` in src/types, as written by the
actions).  The `votedBy` JavaScript object is modelled as an association
list from user id to vote, first entry wins. -/
structure StoryNode where
  storyId : String
  authorId : String
  authorUsername : String
  authorProfilePictureUrl : Option String
  content : String
  order : Int
  parentId : Option String
  createdAt : Int
  updatedAt : Int
  upvotes : Int
  downvotes : Int
  votedBy : List (String × VoteType)
  commentCount : Int
deriving DecidableEq, Repr

/-- One story root document, with the fields `createStoryAction` writes.
`commentCount` is `Option Int`: `createStoryAction` writes no such field
(`storyToCreate` has none), so a freshly created story document carries
`none`; no action in the repository ever writes it. -/
structure Story where
  authorId : String
  authorUsername : String
  title : String
  coverImageUrl : Option String
  tags : List String
  category : String
  status : StoryStatus
  createdAt : Int
  updatedAt : Int
  views : Int
  likes : Int
  nodeCount : Int
  isLocked : Bool
  canonicalBranchNodeId : Option String
  commentCount : Option Int
deriving DecidableEq, Repr

/-- One comment document as written by `addCommentToStoryNodeAction`
(the stored shape is `Omit<StoryNodeComment, 'id'>`). -/
structure CommentDoc where
  storyId : String
  nodeId : String
  authorId : String
  authorUsername : String
  authorProfilePictureUrl : Option String
  text : String
  createdAt : Int
  parentId : Option String
  depth : Int
deriving DecidableEq, Repr

/-- A node document together with its Firestore path keys
`stories/{storyId}/nodes/{nodeId}`. -/
structure NodeEntry where
  storyId : String
  nodeId : String
  node : StoryNode
deriving DecidableEq, Repr

/-- The relevant slice of the Firestore database. -/
structure DB where
  stories : List (String × Story)
  nodes : List NodeEntry
  comments : List CommentDoc
deriving DecidableEq, Repr

/-- The empty database. -/
def DB.empty : DB := ⟨[], [], []⟩

/-- Fetch a story document by id (first matching entry). -/
def lookupStory : List (String × Story) → String → Option Story
  | [], _ => none
  | e :: rest, sid => if e.1 = sid then some e.2 else lookupStory rest sid

/-- Firestore `set` on a story document: overwrite if present, create otherwise. -/
def setStory : List (String × Story) → String → Story → List (String × Story)
  | [], sid, s => [(sid, s)]
  | e :: rest, sid, s =>
      if e.1 = sid then (sid, s) :: rest else e :: setStory rest sid s

/-- Firestore `update` on an existing story document (no-op when absent;
every caller checks existence first inside its transaction). -/
def updateStory : List (String × Story) → String → (Story → Story) → List (String × Story)
  | [], _, _ => []
  | e :: rest, sid, f =>
      if e.1 = sid then (e.1, f e.2) :: rest else e :: updateStory rest sid f

/-- Fetch a node document at `stories/{sid}/nodes/{nid}`. -/
def lookupNode : List NodeEntry → String → String → Option StoryNode
  | [], _, _ => none
  | e :: rest, sid, nid =>
      if e.storyId = sid ∧ e.nodeId = nid then some e.node
      else lookupNode rest sid nid

/-- Firestore `set` on a node document: overwrite if present, create otherwise. -/
def setNode : List NodeEntry → String → String → StoryNode → List NodeEntry
  | [], sid, nid, n => [⟨sid, nid, n⟩]
  | e :: rest, sid, nid, n =>
      if e.storyId = sid ∧ e.nodeId = nid then ⟨sid, nid, n⟩ :: rest
      else e :: setNode rest sid nid n

/-- Firestore `update` on an existing node document. -/
def updateNode : List NodeEntry → String → String → (StoryNode → StoryNode) → List NodeEntry
  | [], _, _, _ => []
  | e :: rest, sid, nid, f =>
      if e.storyId = sid ∧ e.nodeId = nid then ⟨e.storyId, e.nodeId, f e.node⟩ :: rest
      else e :: updateNode rest sid nid f

/-- Number of node documents stored under story `sid` (the cardinality the
`nodeCount` aggregate is supposed to track). -/
def countNodes : List NodeEntry → String → Nat
  | [], _ => 0
  | e :: rest, sid => (if e.storyId = sid then 1 else 0) + countNodes rest sid

/-- Sum of `commentCount` over all nodes of story `sid` — the quantity the
story detail page computes with
`storyNodes.reduce((acc, curr) => acc + (curr.commentCount || 0), 0)`. -/
def sumCommentCounts : List NodeEntry → String → Int
  | [], _ => 0
  | e :: rest, sid =>
      (if e.storyId = sid then e.node.commentCount else 0) + sumCommentCounts rest sid

/-- Comments of the subcollection `stories/{sid}/nodes/{nid}/comments`,
in insertion order. -/
def commentsFor (cs : List CommentDoc) (sid nid : String) : List CommentDoc :=
  cs.filter (fun c => decide (c.storyId = sid ∧ c.nodeId = nid))

/-- JavaScript `x || undefined` on an optional string: an absent or empty
string becomes `undefined`. -/
def jsOrUndefined : Option String → Option String
  | none => none
  | some s => if s = "" then none else some s

/-- JavaScript `x || 'Anonymous'` on a string. -/
def jsOrAnonymous (s : String) : String :=
  if s = "" then "Anonymous" else s

/-! ### createStoryAction (src/app/stories/create/actions.ts) -/

/-- Input of `createStoryAction`.  `coverImageUrl` is the public URL
produced by the external Supabase upload (`none` when no cover image was
sent); the upload itself is outside the modelled core. -/
structure CreateStoryInput where
  title : String
  initialNodeContent : String
  category : String
  tags : Option String
  status : StoryStatus
  authorId : String
  authorUsername : String
  authorProfilePictureUrl : Option String
  coverImageUrl : Option String
deriving DecidableEq, Repr

/-- The zod checks of `createStoryServerActionSchema` that can fail:
title length 5..150, content at least 10 characters and not the literal
`<p></p>`, non-empty category.  (`authorId`, `authorUsername` are plain
`z.string()`, `status` is already an enum.) -/
def validCreateStory (inp : CreateStoryInput) : Bool :=
  decide (5 ≤ inp.title.length) && decide (inp.title.length ≤ 150) &&
    decide (10 ≤ inp.initialNodeContent.length) &&
    !(inp.initialNodeContent = "<p></p>" : Bool) &&
    decide (1 ≤ inp.category.length)

/-- `tags ? tags.split(',').map(tag => tag.trim()).filter(tag => tag) : []` -/
def parseTags : Option String → List String
  | none => []
  | some s =>
      if s = "" then []
      else ((s.splitOn ",").map String.trim).filter (fun t => !(t = "" : Bool))

/-- The story document `storyToCreate` (note: no `commentCount` field is
written, hence `none`). -/
def mkStory (inp : CreateStoryInput) (now : Int) : Story :=
  { authorId := inp.authorId
    authorUsername := jsOrAnonymous inp.authorUsername
    title := inp.title
    coverImageUrl := inp.coverImageUrl
    tags := parseTags inp.tags
    category := inp.category
    status := inp.status
    createdAt := now
    updatedAt := now
    views := 0
    likes := 0
    nodeCount := 1
    isLocked := false
    canonicalBranchNodeId := none
    commentCount := none }

/-- The root node document `firstStoryNode`. -/
def mkFirstNode (inp : CreateStoryInput) (sid : String) (now : Int) : StoryNode :=
  { storyId := sid
    authorId := inp.authorId
    authorUsername := jsOrAnonymous inp.authorUsername
    authorProfilePictureUrl := jsOrUndefined inp.authorProfilePictureUrl
    content := inp.initialNodeContent
    order := now
    parentId := none
    createdAt := now
    updatedAt := now
    upvotes := 0
    downvotes := 0
    votedBy := []
    commentCount := 0 }

/-- Result of `createStoryAction`. -/
inductive CreateStoryResult where
  | ok (storyId : String)
  | invalid
deriving DecidableEq, Repr

/-- `createStoryAction`: validate, then write the story document
(`nodeCount: 1`) and its single root node in one `writeBatch`.
`sid`/`nid` are the two Firestore-generated document ids, `now` is
`Date.now()`. -/
def createStory (db : DB) (inp : CreateStoryInput) (sid nid : String) (now : Int) :
    CreateStoryResult × DB :=
  if validCreateStory inp then
    (.ok sid,
     { db with
         stories := setStory db.stories sid (mkStory inp now)
         nodes := setNode db.nodes sid nid (mkFirstNode inp sid now) })
  else (.invalid, db)

/-! ### addStoryNodeAction (src/app/stories/edit/[storyId]/actions.ts) -/

/-- Input of `addStoryNodeAction`. -/
structure AddNodeInput where
  storyId : String
  authorId : String
  authorUsername : String
  authorProfilePictureUrl : Option String
  newNodeContent : String
  parentNodeId : String
deriving DecidableEq, Repr

/-- The zod checks of `addStoryNodeServerActionSchema`: non-empty story id,
non-empty author id, content at least 10 characters, non-empty parent node
id.  The parent node's existence is NOT checked anywhere. -/
def validAddNode (inp : AddNodeInput) : Bool :=
  decide (1 ≤ inp.storyId.length) && decide (1 ≤ inp.authorId.length) &&
    decide (10 ≤ inp.newNodeContent.length) && decide (1 ≤ inp.parentNodeId.length)

/-- The node document `newStoryNode` written by `addStoryNodeAction`. -/
def mkBranchNode (inp : AddNodeInput) (now : Int) : StoryNode :=
  { storyId := inp.storyId
    authorId := inp.authorId
    authorUsername := inp.authorUsername
    authorProfilePictureUrl := jsOrUndefined inp.authorProfilePictureUrl
    content := inp.newNodeContent
    order := now
    parentId := some inp.parentNodeId
    createdAt := now
    updatedAt := now
    upvotes := 0
    downvotes := 0
    votedBy := []
    commentCount := 0 }

/-- Result of `addStoryNodeAction`.  `nodeCount` is the
`(storyData.nodeCount || 0) + 1` value the action reports back. -/
inductive AddNodeResult where
  | ok (newNodeId : String) (nodeCount : Int)
  | invalid
  | storyNotFound
deriving DecidableEq, Repr

/-- `addStoryNodeAction`: validate, then inside one `runTransaction` read
the story document (aborting with "Story not found." when absent), write
the new node and increment the story's `nodeCount`.  `nid` is the
Firestore-generated node id. -/
def addStoryNode (db : DB) (inp : AddNodeInput) (nid : String) (now : Int) :
    AddNodeResult × DB :=
  if validAddNode inp then
    match lookupStory db.stories inp.storyId with
    | none => (.storyNotFound, db)
    | some story =>
        (.ok nid (story.nodeCount + 1),
         { db with
             nodes := setNode db.nodes inp.storyId nid (mkBranchNode inp now)
             stories := updateStory db.stories inp.storyId
               (fun s => { s with nodeCount := s.nodeCount + 1, updatedAt := now }) })
  else (.invalid, db)

/-! ### addCommentToStoryNodeAction (src/app/stories/[storyId]/actions.ts) -/

/-- Input of `addCommentToStoryNodeAction`. -/
structure AddCommentInput where
  storyId : String
  nodeId : String
  authorId : String
  authorUsername : String
  authorProfilePictureUrl : Option String
  text : String
deriving DecidableEq, Repr

/-- The zod checks of `addCommentToStoryNodeSchema`: non-empty ids and a
text of at least one character that is not the literal `<p></p>`. -/
def validAddComment (inp : AddCommentInput) : Bool :=
  decide (1 ≤ inp.storyId.length) && decide (1 ≤ inp.nodeId.length) &&
    decide (1 ≤ inp.authorId.length) &&
    decide (1 ≤ inp.text.length) && !(inp.text = "<p></p>" : Bool)

/-- The comment document `newComment` written by the action. -/
def mkCommentDoc (inp : AddCommentInput) (now : Int) : CommentDoc :=
  { storyId := inp.storyId
    nodeId := inp.nodeId
    authorId := inp.authorId
    authorUsername := inp.authorUsername
    authorProfilePictureUrl := inp.authorProfilePictureUrl
    text := inp.text
    createdAt := now
    parentId := none
    depth := 0 }

/-- Result of `addCommentToStoryNodeAction`. -/
inductive AddCommentResult where
  | ok
  | invalid
  | nodeNotFound
deriving DecidableEq, Repr

/-- `addCommentToStoryNodeAction`: validate, then in one `writeBatch`
append the comment document and `batch.update` the node with
`commentCount: FieldValue.increment(1)`.  The batch is atomic: when the
node document does not exist the `update` makes the whole commit fail and
nothing is written.  No story root document is touched. -/
def addComment (db : DB) (inp : AddCommentInput) (now : Int) : AddCommentResult × DB :=
  if validAddComment inp then
    match lookupNode db.nodes inp.storyId inp.nodeId with
    | none => (.nodeNotFound, db)
    | some _ =>
        (.ok,
         { db with
             comments := db.comments ++ [mkCommentDoc inp now]
             nodes := updateNode db.nodes inp.storyId inp.nodeId
               (fun n => { n with commentCount := n.commentCount + 1 }) })
  else (.invalid, db)

/-! ### handleVote (src/app/stories/[storyId]/actions.ts) -/

/-- Input of the vote actions (`voteActionSchema`). -/
structure VoteInput where
  storyId : String
  nodeId : String
  userId : String
deriving DecidableEq, Repr

/-- The zod checks of `voteActionSchema`. -/
def validVote (inp : VoteInput) : Bool :=
  decide (1 ≤ inp.storyId.length) && decide (1 ≤ inp.nodeId.length) &&
    decide (1 ≤ inp.userId.length)

/-- `currentVotedBy[userId]` — read the voter's entry. -/
def getVote : List (String × VoteType) → String → Option VoteType
  | [], _ => none
  | e :: rest, u => if e.1 = u then some e.2 else getVote rest u

/-- `delete currentVotedBy[userId]` — remove the voter's entry. -/
def removeVote : List (String × VoteType) → String → List (String × VoteType)
  | [], _ => []
  | e :: rest, u => if e.1 = u then removeVote rest u else e :: removeVote rest u

/-- `currentVotedBy[userId] = v` — set the voter's entry. -/
def setVote : List (String × VoteType) → String → VoteType → List (String × VoteType)
  | [], u, v => [(u, v)]
  | e :: rest, u, v => if e.1 = u then (u, v) :: rest else e :: setVote rest u v

/-- The toggle computation of `handleVote` together with the
`transaction.update` field writes: `upvotes`, `downvotes`, `votedBy` and
`updatedAt` are set, everything else is carried over unchanged.
`Math.max(0, x - 1)` is `max 0 (x - 1)`. -/
def applyVote (node : StoryNode) (userId : String) (voteType : VoteType) (now : Int) :
    StoryNode :=
  let prior := getVote node.votedBy userId
  match voteType with
  | .upvote =>
      if prior = some .upvote then
        { node with
            upvotes := max 0 (node.upvotes - 1)
            votedBy := removeVote node.votedBy userId
            updatedAt := now }
      else
        { node with
            downvotes :=
              if prior = some .downvote then max 0 (node.downvotes - 1) else node.downvotes
            upvotes := node.upvotes + 1
            votedBy := setVote node.votedBy userId .upvote
            updatedAt := now }
  | .downvote =>
      if prior = some .downvote then
        { node with
            downvotes := max 0 (node.downvotes - 1)
            votedBy := removeVote node.votedBy userId
            updatedAt := now }
      else
        { node with
            upvotes :=
              if prior = some .upvote then max 0 (node.upvotes - 1) else node.upvotes
            downvotes := node.downvotes + 1
            votedBy := setVote node.votedBy userId .downvote
            updatedAt := now }

/-- Result of the vote actions. -/
inductive VoteResult where
  | ok
  | invalid
  | nodeNotFound
deriving DecidableEq, Repr

/-- `handleVote`: validate, then inside one `runTransaction` read the node
(aborting with "Story node not found." when absent), run the toggle
computation and update the node document. -/
def handleVote (db : DB) (inp : VoteInput) (voteType : VoteType) (now : Int) :
    VoteResult × DB :=
  if validVote inp then
    match lookupNode db.nodes inp.storyId inp.nodeId with
    | none => (.nodeNotFound, db)
    | some _ =>
        (.ok,
         { db with
             nodes := updateNode db.nodes inp.storyId inp.nodeId
               (fun n => applyVote n inp.userId voteType now) })
  else (.invalid, db)

/-- A finite sequence of votes `(voterId, direction, timestamp)` applied to
one node, each through the toggle computation. -/
def applyVotes (node : StoryNode) : List (String × VoteType × Int) → StoryNode
  | [] => node
  | op :: rest => applyVotes (applyVote node op.1 op.2.1 op.2.2) rest

/-! ### Tree rendering (src/app/stories/[storyId]/page.tsx) -/

/-- `allNodes.filter(childNode => childNode.parentId === node.id)
.sort((a, b) => a.order - b.order)` — the children (or, for `pid = none`,
the roots) of a parent, siblings in ascending `order`.  JavaScript's
`Array.prototype.sort` is stable; the stable `List.insertionSort` models it. -/
def childrenOf (ns : List NodeEntry) (pid : Option String) : List NodeEntry :=
  (ns.filter (fun e => decide (e.node.parentId = pid))).insertionSort
    (fun a b => a.node.order ≤ b.node.order)

/-- Depth-first rendering order of `StoryNodeDisplay`: each node is emitted
before its recursively rendered children.  The recursion depth of the
React component tree is bounded here by explicit fuel; `ns.length + 1`
fuel (see `renderTree`) covers every parent chain the page can follow. -/
def renderFrom : Nat → List NodeEntry → Option String → List NodeEntry
  | 0, _, _ => []
  | fuel + 1, ns, pid =>
      (childrenOf ns pid).flatMap (fun c => c :: renderFrom fuel ns (some c.nodeId))

/-- Full page rendering: `renderNodesRecursive(rootNodesToRender,
storyNodes, null, 0)` — the traversal starts at the nodes with
`parentId === null`. -/
def renderTree (ns : List NodeEntry) : List NodeEntry :=
  renderFrom (ns.length + 1) ns none

/-! ### Spec-side definitions -/

/-- The opposite direction of a vote. -/
def oppositeVote : VoteType → VoteType
  | .upvote => .downvote
  | .downvote => .upvote

/-- Toggle semantics exactly as the specification words them, as a function
of the voter's prior map entry: the triple is the new
`(upCount, downCount, voter's map entry)`.  If `prior == direction` the
vote is withdrawn (entry removed, that tally decremented by 1, floor at 0);
if `prior` is the opposite direction, the opposite tally is decremented by
1 (floor at 0), the new tally incremented and the entry set; if there is
no prior entry, only the new tally is incremented and the entry set. -/
def specToggle (prior : Option VoteType) (up down : Int) (d : VoteType) :
    Int × Int × Option VoteType :=
  if prior = some d then
    match d with
    | .upvote => (max 0 (up - 1), down, none)
    | .downvote => (up, max 0 (down - 1), none)
  else if prior = some (oppositeVote d) then
    match d with
    | .upvote => (up + 1, max 0 (down - 1), some .upvote)
    | .downvote => (max 0 (up - 1), down + 1, some .downvote)
  else
    match d with
    | .upvote => (up + 1, down, some .upvote)
    | .downvote => (up, down + 1, some .downvote)

/-- The branch-count invariant: every stored story document's `nodeCount`
equals the number of node documents under that story. -/
def branchInv (db : DB) : Prop :=
  ∀ sid s, lookupStory db.stories sid = some s →
    s.nodeCount = (countNodes db.nodes sid : Int)

/-! ### Concrete sample data -/

/-- A valid `createStoryAction` input. -/
def inpCreateW : CreateStoryInput :=
  { title := "Title", initialNodeContent := "0123456789", category := "cat",
    tags := none, status := .published, authorId := "a1", authorUsername := "alice",
    authorProfilePictureUrl := none, coverImageUrl := none }

/-- Database after creating story `s1` with root node `n1`. -/
def dbW1 : DB := (createStory DB.empty inpCreateW "s1" "n1" 100).2

/-- A valid `addStoryNodeAction` input whose parent `n1` exists. -/
def inpNodeW : AddNodeInput :=
  { storyId := "s1", authorId := "a1", authorUsername := "alice",
    authorProfilePictureUrl := none, newNodeContent := "abcdefghij", parentNodeId := "n1" }

/-- Database after additionally adding branch node `n2` under `n1`. -/
def dbW3 : DB := (addStoryNode dbW1 inpNodeW "n2" 150).2

/-- An `addStoryNodeAction` input whose `parentNodeId` names no existing node. -/
def inpNodeGhost : AddNodeInput :=
  { storyId := "s1", authorId := "a1", authorUsername := "alice",
    authorProfilePictureUrl := none, newNodeContent := "abcdefghij",
    parentNodeId := "ghost" }

/-- A valid comment input for node `n1` of story `s1`. -/
def inpCommentW : AddCommentInput :=
  { storyId := "s1", nodeId := "n1", authorId := "u1", authorUsername := "bob",
    authorProfilePictureUrl := none, text := "<p>hi</p>" }

/-- Database after posting one comment on `n1`. -/
def dbW2 : DB := (addComment dbW1 inpCommentW 200).2

/-- A comment input whose body is a single blank — whitespace only. -/
def inpCommentBlank : AddCommentInput :=
  { storyId := "s1", nodeId := "n1", authorId := "u1", authorUsername := "bob",
    authorProfilePictureUrl := none, text := " " }

/-- A comment input with an empty body. -/
def inpCommentEmpty : AddCommentInput :=
  { storyId := "s1", nodeId := "n1", authorId := "u1", authorUsername := "bob",
    authorProfilePictureUrl := none, text := "" }

/-- A vote request on node `n1` of story `s1` by user `v1`. -/
def voteInpW : VoteInput := { storyId := "s1", nodeId := "n1", userId := "v1" }

/-- Database after an upvote on `n1` by `v1`. -/
def dbV : DB := (handleVote dbW1 voteInpW .upvote 400).2

/-- A fresh node with zero tallies and an empty vote map. -/
def nodeW : StoryNode := mkFirstNode inpCreateW "s1" 100

/-- A node on which voter `v1` currently holds a downvote (one downvote tally). -/
def nodeCex : StoryNode := { nodeW with downvotes := 1, votedBy := [("v1", .downvote)] }

/-- A root entry for the traversal examples. -/
def rootEntry : NodeEntry := ⟨"s1", "n1", mkFirstNode inpCreateW "s1" 100⟩

/-- An orphaned entry: its `parentId` is `some "ghost"` and no node has id
`ghost`. -/
def orphanEntry : NodeEntry :=
  ⟨"s1", "nX", { mkFirstNode inpCreateW "s1" 100 with parentId := some "ghost", order := 5 }⟩

/-- A node set containing a root and an orphaned node. -/
def nsOrphan : List NodeEntry := [rootEntry, orphanEntry]

/-! ### Vote map lemmas -/

theorem getVote_removeVote_self (m : List (String × VoteType)) (u : String) :
    getVote (removeVote m u) u = none := by
  induction m with
  | nil => rfl
  | cons e rest ih =>
      by_cases h : e.1 = u
      · simp [removeVote, h, ih]
      · simp [removeVote, h, getVote, ih]

theorem getVote_removeVote_other (m : List (String × VoteType)) {u u' : String}
    (h : u' ≠ u) : getVote (removeVote m u) u' = getVote m u' := by
  induction m with
  | nil => rfl
  | cons e rest ih =>
      by_cases h' : e.1 = u
      · have : e.1 ≠ u' := by rw [h']; exact Ne.symm h
        simp [removeVote, h', getVote, this, ih, Ne.symm h]
      · simp only [removeVote, if_neg h', getVote]
        by_cases h'' : e.1 = u'
        · simp [h'']
        · simp [h'', ih]

theorem getVote_setVote_self (m : List (String × VoteType)) (u : String) (v : VoteType) :
    getVote (setVote m u v) u = some v := by
  induction m with
  | nil => simp [setVote, getVote]
  | cons e rest ih =>
      by_cases h : e.1 = u
      · simp [setVote, h, getVote]
      · simp [setVote, h, getVote, ih]

theorem getVote_setVote_other (m : List (String × VoteType)) {u u' : String}
    (v : VoteType) (h : u' ≠ u) : getVote (setVote m u v) u' = getVote m u' := by
  induction m with
  | nil => simp [setVote, getVote, Ne.symm h]
  | cons e rest ih =>
      by_cases h' : e.1 = u
      · have : e.1 ≠ u' := by rw [h']; exact Ne.symm h
        simp [setVote, h', getVote, this, Ne.symm h]
      · simp only [setVote, if_neg h', getVote]
        by_cases h'' : e.1 = u'
        · simp [h'']
        · simp [h'', ih]

/-! ### Node store lemmas -/

theorem lookupNode_setNode_self (ns : List NodeEntry) (sid nid : String) (n : StoryNode) :
    lookupNode (setNode ns sid nid n) sid nid = some n := by
  induction ns with
  | nil => simp [setNode, lookupNode]
  | cons e rest ih =>
      by_cases h : e.storyId = sid ∧ e.nodeId = nid
      · simp [setNode, h, lookupNode]
      · simp [setNode, h, lookupNode, ih]

theorem lookupNode_setNode_other (ns : List NodeEntry) {sid nid s n : String}
    (nd : StoryNode) (h : ¬(s = sid ∧ n = nid)) :
    lookupNode (setNode ns sid nid nd) s n = lookupNode ns s n := by
  induction ns with
  | nil =>
      have : ¬(sid = s ∧ nid = n) := fun ⟨h1, h2⟩ => h ⟨h1.symm, h2.symm⟩
      simp [setNode, lookupNode, this]
  | cons e rest ih =>
      by_cases h' : e.storyId = sid ∧ e.nodeId = nid
      · have hne : ¬(sid = s ∧ nid = n) := fun ⟨h1, h2⟩ => h ⟨h1.symm, h2.symm⟩
        have hne' : ¬(e.storyId = s ∧ e.nodeId = n) := by
          rw [h'.1, h'.2]; exact hne
        simp [setNode, h', lookupNode, hne, hne']
      · simp only [setNode, if_neg h', lookupNode]
        by_cases h'' : e.storyId = s ∧ e.nodeId = n
        · simp [h'']
        · simp [h'', ih]

theorem lookupNode_updateNode_self (ns : List NodeEntry) {sid nid : String}
    {n : StoryNode} (f : StoryNode → StoryNode) (h : lookupNode ns sid nid = some n) :
    lookupNode (updateNode ns sid nid f) sid nid = some (f n) := by
  induction ns with
  | nil => simp [lookupNode] at h
  | cons e rest ih =>
      by_cases h' : e.storyId = sid ∧ e.nodeId = nid
      · rw [lookupNode, if_pos h'] at h
        cases h
        simp [updateNode, h', lookupNode]
      · rw [lookupNode, if_neg h'] at h
        simp [updateNode, h', lookupNode, ih h]

theorem lookupNode_updateNode_other (ns : List NodeEntry) {sid nid s n : String}
    (f : StoryNode → StoryNode) (h : ¬(s = sid ∧ n = nid)) :
    lookupNode (updateNode ns sid nid f) s n = lookupNode ns s n := by
  induction ns with
  | nil => simp [updateNode]
  | cons e rest ih =>
      by_cases h' : e.storyId = sid ∧ e.nodeId = nid
      · have hne : ¬(sid = s ∧ nid = n) := fun ⟨h1, h2⟩ => h ⟨h1.symm, h2.symm⟩
        have hne' : ¬(e.storyId = s ∧ e.nodeId = n) := by
          rw [h'.1, h'.2]; exact hne
        simp [updateNode, h', lookupNode, hne', hne]
      · simp only [updateNode, if_neg h', lookupNode]
        by_cases h'' : e.storyId = s ∧ e.nodeId = n
        · simp [h'']
        · simp [h'', ih]

theorem countNodes_updateNode (ns : List NodeEntry) (sid nid s : String)
    (f : StoryNode → StoryNode) :
    countNodes (updateNode ns sid nid f) s = countNodes ns s := by
  induction ns with
  | nil => rfl
  | cons e rest ih =>
      by_cases h : e.storyId = sid ∧ e.nodeId = nid
      · simp [updateNode, h, countNodes]
      · simp [updateNode, h, countNodes, ih]

theorem countNodes_setNode_fresh (ns : List NodeEntry) {sid nid : String} (s : String)
    (nd : StoryNode) (h : lookupNode ns sid nid = none) :
    countNodes (setNode ns sid nid nd) s
      = countNodes ns s + (if sid = s then 1 else 0) := by
  induction ns with
  | nil => simp [setNode, countNodes, Nat.add_comm]
  | cons e rest ih =>
      by_cases h' : e.storyId = sid ∧ e.nodeId = nid
      · rw [lookupNode, if_pos h'] at h
        cases h
      · rw [lookupNode, if_neg h'] at h
        simp only [setNode, if_neg h', countNodes, ih h]
        omega

theorem countNodes_zero_lookup (ns : List NodeEntry) {sid : String} (nid : String)
    (h : countNodes ns sid = 0) : lookupNode ns sid nid = none := by
  induction ns with
  | nil => rfl
  | cons e rest ih =>
      rw [countNodes] at h
      by_cases h' : e.storyId = sid
      · rw [if_pos h'] at h
        omega
      · rw [if_neg h'] at h
        have h2 : countNodes rest sid = 0 := by omega
        have : ¬(e.storyId = sid ∧ e.nodeId = nid) := fun hc => h' hc.1
        rw [lookupNode, if_neg this]
        exact ih h2

theorem sumCommentCounts_updateNode_bump (ns : List NodeEntry) {sid nid : String}
    {n : StoryNode} (h : lookupNode ns sid nid = some n) :
    sumCommentCounts
        (updateNode ns sid nid (fun m => { m with commentCount := m.commentCount + 1 })) sid
      = sumCommentCounts ns sid + 1 := by
  induction ns with
  | nil => simp [lookupNode] at h
  | cons e rest ih =>
      by_cases h' : e.storyId = sid ∧ e.nodeId = nid
      · simp only [updateNode, if_pos h', sumCommentCounts, if_pos h'.1]
        omega
      · rw [lookupNode, if_neg h'] at h
        simp only [updateNode, if_neg h', sumCommentCounts, ih h]
        omega

/-! ### Story store lemmas -/

theorem lookupStory_setStory_self (ss : List (String × Story)) (sid : String) (s : Story) :
    lookupStory (setStory ss sid s) sid = some s := by
  induction ss with
  | nil => simp [setStory, lookupStory]
  | cons e rest ih =>
      by_cases h : e.1 = sid
      · simp [setStory, h, lookupStory]
      · simp [setStory, h, lookupStory, ih]

theorem lookupStory_setStory_other (ss : List (String × Story)) {sid s' : String}
    (s : Story) (h : s' ≠ sid) :
    lookupStory (setStory ss sid s) s' = lookupStory ss s' := by
  induction ss with
  | nil => simp [setStory, lookupStory, Ne.symm h]
  | cons e rest ih =>
      by_cases h' : e.1 = sid
      · have : e.1 ≠ s' := by rw [h']; exact Ne.symm h
        simp [setStory, h', lookupStory, this, Ne.symm h]
      · simp only [setStory, if_neg h', lookupStory]
        by_cases h'' : e.1 = s'
        · simp [h'']
        · simp [h'', ih]

theorem lookupStory_updateStory_self (ss : List (String × Story)) {sid : String}
    {s : Story} (f : Story → Story) (h : lookupStory ss sid = some s) :
    lookupStory (updateStory ss sid f) sid = some (f s) := by
  induction ss with
  | nil => simp [lookupStory] at h
  | cons e rest ih =>
      by_cases h' : e.1 = sid
      · rw [lookupStory, if_pos h'] at h
        cases h
        simp [updateStory, h', lookupStory]
      · rw [lookupStory, if_neg h'] at h
        simp [updateStory, h', lookupStory, ih h]

theorem lookupStory_updateStory_other (ss : List (String × Story)) {sid s' : String}
    (f : Story → Story) (h : s' ≠ sid) :
    lookupStory (updateStory ss sid f) s' = lookupStory ss s' := by
  induction ss with
  | nil => simp [updateStory]
  | cons e rest ih =>
      by_cases h' : e.1 = sid
      · have : e.1 ≠ s' := by rw [h']; exact Ne.symm h
        simp [updateStory, h', lookupStory, this, Ne.symm h]
      · simp only [updateStory, if_neg h', lookupStory]
        by_cases h'' : e.1 = s'
        · simp [h'']
        · simp [h'', ih]

/-! ### Traversal lemmas -/

instance nodeOrderLeTotal : IsTotal NodeEntry (fun a b => a.node.order ≤ b.node.order) :=
  ⟨fun a b => Int.le_total a.node.order b.node.order⟩

instance nodeOrderLeTrans : IsTrans NodeEntry (fun a b => a.node.order ≤ b.node.order) :=
  ⟨fun _ _ _ => Int.le_trans⟩

theorem mem_childrenOf {ns : List NodeEntry} {pid : Option String} {e : NodeEntry} :
    e ∈ childrenOf ns pid ↔ e ∈ ns ∧ e.node.parentId = pid := by
  unfold childrenOf
  rw [List.mem_insertionSort, List.mem_filter]
  simp

theorem childrenOf_perm (ns : List NodeEntry) (pid : Option String) :
    (childrenOf ns pid).Perm (ns.filter (fun e => decide (e.node.parentId = pid))) :=
  List.perm_insertionSort _ _

theorem childrenOf_sorted (ns : List NodeEntry) (pid : Option String) :
    (childrenOf ns pid).Pairwise (fun a b => a.node.order ≤ b.node.order) :=
  List.sorted_insertionSort _ _

theorem mem_renderFrom_parent (fuel : Nat) (ns : List NodeEntry) (pid : Option String)
    (e : NodeEntry) (h : e ∈ renderFrom fuel ns pid) :
    e.node.parentId = pid ∨ ∃ c ∈ ns, e.node.parentId = some c.nodeId := by
  induction fuel generalizing pid with
  | zero => simp [renderFrom] at h
  | succ n ih =>
      rw [renderFrom, List.mem_flatMap] at h
      obtain ⟨c, hc, hmem⟩ := h
      rcases List.mem_cons.mp hmem with heq | hrec
      · subst heq
        exact .inl (mem_childrenOf.mp hc).2
      · rcases ih (some c.nodeId) hrec with hp | hex
        · exact .inr ⟨c, (mem_childrenOf.mp hc).1, hp⟩
        · exact .inr hex

/-! ### Toggle computation lemmas -/

theorem applyVote_toggle (node : StoryNode) (u : String) (vt : VoteType) (now : Int) :
    ((applyVote node u vt now).upvotes, (applyVote node u vt now).downvotes,
      getVote (applyVote node u vt now).votedBy u)
      = specToggle (getVote node.votedBy u) node.upvotes node.downvotes vt := by
  cases vt with
  | upvote =>
      unfold applyVote specToggle
      by_cases h1 : getVote node.votedBy u = some .upvote
      · simp [h1, getVote_removeVote_self]
      · by_cases h2 : getVote node.votedBy u = some .downvote
        · simp [h1, h2, oppositeVote, getVote_setVote_self]
        · simp [h1, h2, oppositeVote, getVote_setVote_self]
  | downvote =>
      unfold applyVote specToggle
      by_cases h1 : getVote node.votedBy u = some .downvote
      · simp [h1, getVote_removeVote_self]
      · by_cases h2 : getVote node.votedBy u = some .upvote
        · simp [h1, h2, oppositeVote, getVote_setVote_self]
        · simp [h1, h2, oppositeVote, getVote_setVote_self]

theorem specToggle_nonneg (prior : Option VoteType) (up down : Int) (d : VoteType)
    (h1 : 0 ≤ up) (h2 : 0 ≤ down) :
    0 ≤ (specToggle prior up down d).1 ∧ 0 ≤ (specToggle prior up down d).2.1 := by
  unfold specToggle
  cases d <;> split_ifs <;> constructor <;> simp only [le_max_iff] <;> omega

theorem applyVote_frame (node : StoryNode) (u : String) (vt : VoteType) (now : Int) :
    (applyVote node u vt now).storyId = node.storyId ∧
    (applyVote node u vt now).authorId = node.authorId ∧
    (applyVote node u vt now).authorUsername = node.authorUsername ∧
    (applyVote node u vt now).authorProfilePictureUrl = node.authorProfilePictureUrl ∧
    (applyVote node u vt now).content = node.content ∧
    (applyVote node u vt now).order = node.order ∧
    (applyVote node u vt now).parentId = node.parentId ∧
    (applyVote node u vt now).createdAt = node.createdAt ∧
    (applyVote node u vt now).commentCount = node.commentCount := by
  cases vt <;> unfold applyVote <;> dsimp only <;> split <;> simp

theorem applyVote_votedBy_other (node : StoryNode) {u u' : String} (vt : VoteType)
    (now : Int) (h : u' ≠ u) :
    getVote (applyVote node u vt now).votedBy u' = getVote node.votedBy u' := by
  cases vt <;> unfold applyVote <;> dsimp only <;> split <;>
    simp [getVote_removeVote_other _ h, getVote_setVote_other _ _ h]

theorem specToggle_none_up (up down : Int) :
    specToggle none up down .upvote = (up + 1, down, some .upvote) := by
  simp [specToggle]

theorem specToggle_none_down (up down : Int) :
    specToggle none up down .downvote = (up, down + 1, some .downvote) := by
  simp [specToggle]

theorem specToggle_same_up (up down : Int) :
    specToggle (some .upvote) up down .upvote = (max 0 (up - 1), down, none) := by
  simp [specToggle]

theorem specToggle_same_down (up down : Int) :
    specToggle (some .downvote) up down .downvote = (up, max 0 (down - 1), none) := by
  simp [specToggle]

/-! ## Claim theorems -/

/-- C3: for every existing node, voter and direction, the committed update of
the vote action realises exactly the spec's toggle case analysis on the
voter's prior map entry — withdrawal (entry removed, own tally decremented,
floor 0) when the prior entry equals the direction; switch (opposite tally
decremented with floor 0, own tally incremented, entry overwritten) when the
prior entry is opposite; plain increment and entry creation when there is no
prior entry. -/
theorem castVote_toggle_semantics (db : DB) (inp : VoteInput) (d : VoteType)
    (now : Int) (db' : DB) (node : StoryNode)
    (hcommit : handleVote db inp d now = (.ok, db'))
    (hnode : lookupNode db.nodes inp.storyId inp.nodeId = some node) :
    lookupNode db'.nodes inp.storyId inp.nodeId
        = some (applyVote node inp.userId d now) ∧
    ((applyVote node inp.userId d now).upvotes,
      (applyVote node inp.userId d now).downvotes,
      getVote (applyVote node inp.userId d now).votedBy inp.userId)
      = specToggle (getVote node.votedBy inp.userId) node.upvotes node.downvotes d := by
  unfold handleVote at hcommit
  by_cases hv : validVote inp
  · rw [if_pos hv, hnode] at hcommit
    cases hcommit
    exact ⟨lookupNode_updateNode_self _ _ hnode, applyVote_toggle node inp.userId d now⟩
  · rw [if_neg hv] at hcommit
    cases hcommit

/-- Witness for C3 at a concrete committed upvote. -/
theorem castVote_toggle_semantics_witness :
    lookupNode dbV.nodes "s1" "n1" = some (applyVote nodeW "v1" .upvote 400) ∧
    ((applyVote nodeW "v1" .upvote 400).upvotes,
      (applyVote nodeW "v1" .upvote 400).downvotes,
      getVote (applyVote nodeW "v1" .upvote 400).votedBy "v1")
      = specToggle (getVote nodeW.votedBy "v1") nodeW.upvotes nodeW.downvotes .upvote :=
  castVote_toggle_semantics dbW1 voteInpW .upvote 400 dbV nodeW (by decide) (by decide)

/-- C4 (amended): when the voter has no prior entry on the node and the
tallies are non-negative, casting the same vote twice in a row restores both
tallies and leaves the voter's entry absent.  (With a prior opposite entry
the first cast also erases that opposite vote, so both tallies cannot be
restored — see the counterexample.) -/
theorem castSameVoteTwice_cancels (node : StoryNode) (u : String) (d : VoteType)
    (t1 t2 : Int) (h0 : getVote node.votedBy u = none)
    (h1 : 0 ≤ node.upvotes) (h2 : 0 ≤ node.downvotes) :
    (applyVote (applyVote node u d t1) u d t2).upvotes = node.upvotes ∧
    (applyVote (applyVote node u d t1) u d t2).downvotes = node.downvotes ∧
    getVote (applyVote (applyVote node u d t1) u d t2).votedBy u = none := by
  cases d with
  | upvote =>
      have ha := applyVote_toggle node u .upvote t1
      rw [h0, specToggle_none_up] at ha
      simp only [Prod.ext_iff] at ha
      have hb := applyVote_toggle (applyVote node u .upvote t1) u .upvote t2
      rw [ha.2.2, specToggle_same_up] at hb
      simp only [Prod.ext_iff] at hb
      refine ⟨?_, ?_, hb.2.2⟩
      · rw [hb.1, ha.1]
        have h3 : node.upvotes + 1 - 1 = node.upvotes := by omega
        rw [h3]
        exact max_eq_right h1
      · rw [hb.2.1, ha.2.1]
  | downvote =>
      have ha := applyVote_toggle node u .downvote t1
      rw [h0, specToggle_none_down] at ha
      simp only [Prod.ext_iff] at ha
      have hb := applyVote_toggle (applyVote node u .downvote t1) u .downvote t2
      rw [ha.2.2, specToggle_same_down] at hb
      simp only [Prod.ext_iff] at hb
      refine ⟨?_, ?_, hb.2.2⟩
      · rw [hb.1, ha.1]
      · rw [hb.2.1, ha.2.1]
        have h3 : node.downvotes + 1 - 1 = node.downvotes := by omega
        rw [h3]
        exact max_eq_right h2

/-- Witness for C4 on a fresh node with no prior vote. -/
theorem castSameVoteTwice_cancels_witness :
    (applyVote (applyVote nodeW "v1" .upvote 1) "v1" .upvote 2).upvotes
        = nodeW.upvotes ∧
    (applyVote (applyVote nodeW "v1" .upvote 1) "v1" .upvote 2).downvotes
        = nodeW.downvotes ∧
    getVote (applyVote (applyVote nodeW "v1" .upvote 1) "v1" .upvote 2).votedBy "v1"
        = none :=
  castSameVoteTwice_cancels nodeW "v1" .upvote 1 2 (by decide) (by decide) (by decide)

/-- Counterexample for C4 as stated: voter `v1` holds a downvote
(`downvotes = 1`); casting `upvote` twice ends with `downvotes = 0`, so the
downvote tally does not return to its value before the first cast. -/
theorem castSameVoteTwice_cancels_cex :
    nodeCex.downvotes = 1 ∧
    (applyVote (applyVote nodeCex "v1" .upvote 1) "v1" .upvote 2).downvotes = 0 ∧
    (applyVote (applyVote nodeCex "v1" .upvote 1) "v1" .upvote 2).downvotes
      ≠ nodeCex.downvotes := by
  decide

/-- C5: starting from non-negative tallies, every finite sequence of vote
casts (any voters, any directions) keeps both tallies non-negative. -/
theorem vote_tallies_nonneg (node : StoryNode) (ops : List (String × VoteType × Int))
    (h1 : 0 ≤ node.upvotes) (h2 : 0 ≤ node.downvotes) :
    0 ≤ (applyVotes node ops).upvotes ∧ 0 ≤ (applyVotes node ops).downvotes := by
  induction ops generalizing node with
  | nil => exact ⟨h1, h2⟩
  | cons op rest ih =>
      rw [applyVotes]
      have ht := applyVote_toggle node op.1 op.2.1 op.2.2
      have hn := specToggle_nonneg (getVote node.votedBy op.1) node.upvotes
        node.downvotes op.2.1 h1 h2
      have hu : (applyVote node op.1 op.2.1 op.2.2).upvotes
          = (specToggle (getVote node.votedBy op.1) node.upvotes node.downvotes op.2.1).1 :=
        congrArg Prod.fst ht
      have hd : (applyVote node op.1 op.2.1 op.2.2).downvotes
          = (specToggle (getVote node.votedBy op.1) node.upvotes node.downvotes op.2.1).2.1 :=
        congrArg (fun p => p.2.1) ht
      exact ih _ (hu ▸ hn.1) (hd ▸ hn.2)

/-- Witness for C5 on a fresh node and a concrete two-cast sequence. -/
theorem vote_tallies_nonneg_witness :
    0 ≤ (applyVotes nodeW [("v1", .upvote, 1), ("v2", .downvote, 2)]).upvotes ∧
    0 ≤ (applyVotes nodeW [("v1", .upvote, 1), ("v2", .downvote, 2)]).downvotes :=
  vote_tallies_nonneg nodeW [("v1", .upvote, 1), ("v2", .downvote, 2)]
    (by decide) (by decide)

/-- C10: a committed vote writes only the target node document, and on it
only `upvotes`, `downvotes`, `votedBy` and `updatedAt`: stories and comments
are untouched, every other node document is unchanged, the target node's
remaining fields are carried over, and the `votedBy` entries of every voter
other than the caller are preserved. -/
theorem castVote_frame (db : DB) (inp : VoteInput) (vt : VoteType) (now : Int)
    (db' : DB) (hcommit : handleVote db inp vt now = (.ok, db')) :
    db'.stories = db.stories ∧
    db'.comments = db.comments ∧
    (∀ s n, ¬(s = inp.storyId ∧ n = inp.nodeId) →
        lookupNode db'.nodes s n = lookupNode db.nodes s n) ∧
    ∀ node, lookupNode db.nodes inp.storyId inp.nodeId = some node →
      lookupNode db'.nodes inp.storyId inp.nodeId
          = some (applyVote node inp.userId vt now) ∧
      (applyVote node inp.userId vt now).content = node.content ∧
      (applyVote node inp.userId vt now).parentId = node.parentId ∧
      (applyVote node inp.userId vt now).order = node.order ∧
      (applyVote node inp.userId vt now).createdAt = node.createdAt ∧
      (applyVote node inp.userId vt now).commentCount = node.commentCount ∧
      (applyVote node inp.userId vt now).storyId = node.storyId ∧
      (applyVote node inp.userId vt now).authorId = node.authorId ∧
      ∀ u, u ≠ inp.userId →
        getVote (applyVote node inp.userId vt now).votedBy u = getVote node.votedBy u := by
  unfold handleVote at hcommit
  by_cases hv : validVote inp
  · rw [if_pos hv] at hcommit
    cases hl : lookupNode db.nodes inp.storyId inp.nodeId with
    | none => rw [hl] at hcommit; cases hcommit
    | some n0 =>
        rw [hl] at hcommit
        cases hcommit
        refine ⟨rfl, rfl, fun s n h => lookupNode_updateNode_other _ _ h, ?_⟩
        intro node hnode
        obtain rfl : n0 = node := Option.some.inj hnode
        have hf := applyVote_frame n0 inp.userId vt now
        exact ⟨lookupNode_updateNode_self _ _ hl, hf.2.2.2.2.1, hf.2.2.2.2.2.2.1,
          hf.2.2.2.2.2.1, hf.2.2.2.2.2.2.2.1, hf.2.2.2.2.2.2.2.2, hf.1, hf.2.1,
          fun u hu => applyVote_votedBy_other n0 vt now hu⟩
  · rw [if_neg hv] at hcommit
    cases hcommit

/-- Witness for C10 at a concrete committed upvote: stories and comments are
untouched and the target node is the toggle result. -/
theorem castVote_frame_witness :
    dbV.stories = dbW1.stories ∧ dbV.comments = dbW1.comments :=
  have h := castVote_frame dbW1 voteInpW .upvote 400 dbV (by decide)
  ⟨h.1, h.2.1⟩

/-- C7 (amended): the comment schema rejects exactly the empty string and
the literal `<p></p>` before any write — on those bodies the action returns
a validation error and the database is unchanged.  Other whitespace-only
bodies (e.g. a single space) pass the `min(1)` length check and are
accepted and written — see the counterexample. -/
theorem addComment_rejects_empty_body (db : DB) (inp : AddCommentInput) (now : Int)
    (h : inp.text = "" ∨ inp.text = "<p></p>") :
    addComment db inp now = (.invalid, db) := by
  have hv : validAddComment inp = false := by
    unfold validAddComment
    rcases h with h | h <;> rw [h] <;> simp
  unfold addComment
  rw [hv]
  simp

/-- Witness for C7: the empty body is rejected with no write. -/
theorem addComment_rejects_empty_body_witness :
    addComment dbW1 inpCommentEmpty 260 = (.invalid, dbW1) :=
  addComment_rejects_empty_body dbW1 inpCommentEmpty 260 (Or.inl rfl)

/-- Counterexample for C7 as stated: the body `" "` is blank (no
non-whitespace content) yet the action succeeds and writes a comment. -/
theorem addComment_blank_body_cex :
    (addComment dbW1 inpCommentBlank 250).1 = .ok ∧
    (addComment dbW1 inpCommentBlank 250).2.comments.length
      = dbW1.comments.length + 1 := by
  decide

/-- C1 (amended): every successful comment commit atomically appends exactly
one comment document and increments the target node's `commentCount` by 1,
leaving every story root document and every other node unchanged; no story
root aggregate is updated, so the story-wide total exists only as the
read-time sum of the node counts. -/
theorem addComment_commit_effect (db : DB) (inp : AddCommentInput) (now : Int)
    (db' : DB) (hcommit : addComment db inp now = (.ok, db')) :
    db'.stories = db.stories ∧
    db'.comments = db.comments ++ [mkCommentDoc inp now] ∧
    (∀ node, lookupNode db.nodes inp.storyId inp.nodeId = some node →
        lookupNode db'.nodes inp.storyId inp.nodeId
          = some { node with commentCount := node.commentCount + 1 }) ∧
    (∀ s n, ¬(s = inp.storyId ∧ n = inp.nodeId) →
        lookupNode db'.nodes s n = lookupNode db.nodes s n) ∧
    sumCommentCounts db'.nodes inp.storyId
      = sumCommentCounts db.nodes inp.storyId + 1 := by
  unfold addComment at hcommit
  by_cases hv : validAddComment inp
  · rw [if_pos hv] at hcommit
    cases hl : lookupNode db.nodes inp.storyId inp.nodeId with
    | none => rw [hl] at hcommit; cases hcommit
    | some n0 =>
        rw [hl] at hcommit
        cases hcommit
        refine ⟨rfl, rfl, ?_, fun s n h => lookupNode_updateNode_other _ _ h,
          sumCommentCounts_updateNode_bump _ hl⟩
        intro node hnode
        obtain rfl : n0 = node := Option.some.inj hnode
        exact lookupNode_updateNode_self _ _ hl
  · rw [if_neg hv] at hcommit
    cases hcommit

/-- Witness for C1's amended statement at a concrete committed comment. -/
theorem addComment_commit_effect_witness :
    dbW2.stories = dbW1.stories ∧
    dbW2.comments = dbW1.comments ++ [mkCommentDoc inpCommentW 200] ∧
    sumCommentCounts dbW2.nodes "s1" = sumCommentCounts dbW1.nodes "s1" + 1 :=
  have h := addComment_commit_effect dbW1 inpCommentW 200 dbW2 (by decide)
  ⟨h.1, h.2.1, h.2.2.2.2⟩

/-- Counterexample for C1 as stated: after a successful comment on `n1`,
the node-count sum for story `s1` is 1, but the story root document was not
touched — it still carries no comment total at all (`none`, read as 0 by
the pages), so the root total does not equal the sum over the nodes. -/
theorem addComment_no_root_total_cex :
    (addComment dbW1 inpCommentW 200).1 = .ok ∧
    sumCommentCounts dbW2.nodes "s1" = 1 ∧
    lookupStory dbW2.stories "s1" = lookupStory dbW1.stories "s1" ∧
    ((lookupStory dbW2.stories "s1").bind (fun s => s.commentCount)).getD 0
      ≠ sumCommentCounts dbW2.nodes "s1" := by
  decide

/-- C6 (amended): when the story exists but `parentNodeId` references no
existing node, `addStoryNodeAction` performs no parent-existence check: the
commit succeeds, reporting the incremented node count, and creates the new
node with the dangling `parentId`.  No `ParentNotFound` outcome exists in
the code. -/
theorem addBranch_dangling_parent_commits (db : DB) (inp : AddNodeInput)
    (nid : String) (now : Int) (story : Story)
    (hv : validAddNode inp = true)
    (hs : lookupStory db.stories inp.storyId = some story)
    (_hp : lookupNode db.nodes inp.storyId inp.parentNodeId = none)
    (hf : lookupNode db.nodes inp.storyId nid = none) :
    (addStoryNode db inp nid now).1 = .ok nid (story.nodeCount + 1) ∧
    lookupNode (addStoryNode db inp nid now).2.nodes inp.storyId nid
      = some (mkBranchNode inp now) ∧
    countNodes (addStoryNode db inp nid now).2.nodes inp.storyId
      = countNodes db.nodes inp.storyId + 1 := by
  simp only [addStoryNode, hv, if_true, hs]
  refine ⟨trivial, lookupNode_setNode_self _ _ _ _, ?_⟩
  rw [countNodes_setNode_fresh _ _ _ hf, if_pos rfl]

/-- Witness for C6's amended statement: adding a branch whose parent is the
nonexistent node `ghost` commits and creates a second node. -/
theorem addBranch_dangling_parent_commits_witness :
    (addStoryNode dbW1 inpNodeGhost "n2" 300).1
        = .ok "n2" ((mkStory inpCreateW 100).nodeCount + 1) ∧
    lookupNode (addStoryNode dbW1 inpNodeGhost "n2" 300).2.nodes "s1" "n2"
      = some (mkBranchNode inpNodeGhost 300) ∧
    countNodes (addStoryNode dbW1 inpNodeGhost "n2" 300).2.nodes "s1"
      = countNodes dbW1.nodes "s1" + 1 :=
  addBranch_dangling_parent_commits dbW1 inpNodeGhost "n2" 300
    (mkStory inpCreateW 100) (by decide) (by decide) (by decide) (by decide)

/-- Counterexample for C6 as stated: with story `s1` present and parent id
`ghost` absent, the action returns success (not a `ParentNotFound` error)
and the story gains a node. -/
theorem addBranch_parent_not_found_cex :
    (addStoryNode dbW1 inpNodeGhost "n2" 300).1 = .ok "n2" 2 ∧
    countNodes (addStoryNode dbW1 inpNodeGhost "n2" 300).2.nodes "s1" = 2 := by
  decide

/-- C2: the branch-count invariant `nodeCount = number of stored nodes`
holds after every committed tree-creating or branch-adding operation:
`createStoryAction` commits the root with `nodeCount = 1` together with
exactly one node, and every committed `addStoryNodeAction` adds exactly one
node together with a `nodeCount` increment in the same transaction.
Freshness of the Firestore-generated ids is a hypothesis. -/
theorem branch_count_invariant (db : DB) (hinv : branchInv db) :
    (∀ inp sid nid now db₁,
        lookupStory db.stories sid = none →
        countNodes db.nodes sid = 0 →
        createStory db inp sid nid now = (.ok sid, db₁) →
        branchInv db₁ ∧ countNodes db₁.nodes sid = 1) ∧
    (∀ inp nid now cnt db₂,
        lookupNode db.nodes inp.storyId nid = none →
        addStoryNode db inp nid now = (.ok nid cnt, db₂) →
        branchInv db₂ ∧
        countNodes db₂.nodes inp.storyId = countNodes db.nodes inp.storyId + 1) := by
  constructor
  · intro inp sid nid now db₁ hs0 hc0 hcommit
    unfold createStory at hcommit
    by_cases hv : validCreateStory inp
    · rw [if_pos hv] at hcommit
      cases hcommit
      have hfresh := countNodes_zero_lookup db.nodes nid hc0
      constructor
      · intro s' story' hls
        by_cases he : s' = sid
        · subst he
          rw [lookupStory_setStory_self] at hls
          cases hls
          rw [countNodes_setNode_fresh _ _ _ hfresh, if_pos rfl, hc0]
          rfl
        · rw [lookupStory_setStory_other _ _ he] at hls
          have hold := hinv s' story' hls
          rw [countNodes_setNode_fresh _ _ _ hfresh,
            if_neg (fun hh => he hh.symm), Nat.add_zero]
          exact hold
      · rw [countNodes_setNode_fresh _ _ _ hfresh, if_pos rfl, hc0]
    · rw [if_neg hv] at hcommit
      cases hcommit
  · intro inp nid now cnt db₂ hf hcommit
    unfold addStoryNode at hcommit
    by_cases hv : validAddNode inp
    · rw [if_pos hv] at hcommit
      cases hls : lookupStory db.stories inp.storyId with
      | none => rw [hls] at hcommit; cases hcommit
      | some story =>
          rw [hls] at hcommit
          cases hcommit
          constructor
          · intro s' story' hls'
            by_cases he : s' = inp.storyId
            · subst he
              rw [lookupStory_updateStory_self _ _ hls] at hls'
              cases hls'
              have hold := hinv inp.storyId story hls
              rw [countNodes_setNode_fresh _ _ _ hf, if_pos rfl]
              dsimp only
              push_cast
              omega
            · rw [lookupStory_updateStory_other _ _ he] at hls'
              have hold := hinv s' story' hls'
              rw [countNodes_setNode_fresh _ _ _ hf,
                if_neg (fun hh => he hh.symm), Nat.add_zero]
              exact hold
          · rw [countNodes_setNode_fresh _ _ _ hf, if_pos rfl]
    · rw [if_neg hv] at hcommit
      cases hcommit

/-- Witness for C2: the invariant after creating story `s1` and then adding
branch `n2`, with the node count growing by exactly one. -/
theorem branch_count_invariant_witness :
    branchInv dbW3 ∧ countNodes dbW3.nodes "s1" = countNodes dbW1.nodes "s1" + 1 :=
  have hEmpty : branchInv DB.empty := by
    intro sid s h
    simp [DB.empty, lookupStory] at h
  have h1 := (branch_count_invariant DB.empty hEmpty).1 inpCreateW "s1" "n1" 100 dbW1
    rfl rfl (by decide)
  (branch_count_invariant dbW1 h1.1).2 inpNodeW "n2" 150 2 dbW3 (by decide) (by decide)

/-- C8: when sibling `order` keys are pairwise distinct, the page's
traversal is the depth-first order rooted at the `parentId = null` nodes —
each sibling group is a permutation of the corresponding filter, strictly
ascending in `order`, and each recursion level emits a node before its
subtree — and re-rendering the same unchanged node set yields the identical
ordering. -/
theorem traversal_deterministic_sorted (ns : List NodeEntry)
    (hdist : ∀ pid, (ns.filter (fun e => decide (e.node.parentId = pid))).Pairwise
        (fun a b => a.node.order ≠ b.node.order)) :
    (∀ pid, (childrenOf ns pid).Perm
          (ns.filter (fun e => decide (e.node.parentId = pid))) ∧
        (childrenOf ns pid).Pairwise (fun a b => a.node.order < b.node.order)) ∧
    (∀ fuel pid, renderFrom (fuel + 1) ns pid
        = (childrenOf ns pid).flatMap (fun c => c :: renderFrom fuel ns (some c.nodeId))) ∧
    renderTree ns = renderTree ns := by
  refine ⟨fun pid => ⟨childrenOf_perm ns pid, ?_⟩, fun fuel pid => rfl, rfl⟩
  have hle := childrenOf_sorted ns pid
  have hne : (childrenOf ns pid).Pairwise (fun a b => a.node.order ≠ b.node.order) :=
    ((childrenOf_perm ns pid).pairwise_iff (fun h => h.symm)).mpr (hdist pid)
  exact (hle.and hne).imp (fun h => lt_of_le_of_ne h.1 h.2)

/-- Witness for C8 on a one-node set (sibling groups are singletons, so the
distinctness hypothesis holds). -/
theorem traversal_deterministic_sorted_witness :
    ((childrenOf [rootEntry] none).Perm
        ([rootEntry].filter (fun e => decide (e.node.parentId = none))) ∧
      (childrenOf [rootEntry] none).Pairwise
        (fun a b => a.node.order < b.node.order)) ∧
    renderTree [rootEntry] = renderTree [rootEntry] :=
  have hdist : ∀ pid,
      ([rootEntry].filter (fun e => decide (e.node.parentId = pid))).Pairwise
        (fun a b => a.node.order ≠ b.node.order) := by
    intro pid
    simp only [List.filter_cons, List.filter_nil]
    split <;> simp
  have h := traversal_deterministic_sorted [rootEntry] hdist
  ⟨h.1 none, h.2.2⟩

/-- C9 (amended): a unit whose `parentId` points at no existing node id is
silently omitted from the rendered output: the traversal still succeeds (it
is total and renders the rest), but no diagnostic of any kind is produced —
the page has no `StructuralAnomaly` (or any other) reporting channel, so
the orphan simply never appears. -/
theorem orphan_silently_omitted (ns : List NodeEntry) (e : NodeEntry) (p : String)
    (_hmem : e ∈ ns) (hp : e.node.parentId = some p)
    (hnp : ∀ c ∈ ns, c.nodeId ≠ p) :
    e ∉ renderTree ns := by
  intro hin
  rcases mem_renderFrom_parent _ ns none e hin with h0 | ⟨c, hc, hcp⟩
  · rw [hp] at h0
    cases h0
  · rw [hp] at hcp
    exact hnp c hc (Option.some.inj hcp).symm

/-- Witness for C9's amended statement: the orphan entry of `nsOrphan` is
not rendered. -/
theorem orphan_silently_omitted_witness : orphanEntry ∉ renderTree nsOrphan :=
  orphan_silently_omitted nsOrphan orphanEntry "ghost" (by decide) (by decide)
    (by decide)

/-- Counterexample for C9 as stated: `nsOrphan` contains the orphan, the
traversal succeeds and renders the root, yet the orphan is absent from the
output and no diagnostic value exists anywhere in the rendering — the unit
is dropped silently, not reported. -/
theorem orphan_no_diagnostic_cex :
    orphanEntry ∈ nsOrphan ∧ rootEntry ∈ renderTree nsOrphan ∧
    orphanEntry ∉ renderTree nsOrphan := by
  decide
